import Mathlib

/-!
Verification of the socket-option shim in `src/lib_eio/unix/sockopt.c`.

The C file defines a fixed six-entry table `sockopt_int` mapping small integer
indices to `(level, option)` pairs, and two dispatch functions
`eio_unix_getsockopt_int` / `eio_unix_setsockopt_int` that index the table with
the caller-supplied integer and pass the resulting pair to the OCaml runtime's
marshalling routines `caml_unix_getsockopt_aux` / `caml_unix_setsockopt_aux`
with type code 1 (TYPE_INT).

The embedding is parametrised by a `Platform` record supplying the values of
the preprocessor constants (`none` meaning the platform headers do not define
the constant, so the `#ifndef X #define X (-1)` fallback applies).  The C
functions perform no bounds check and no sentinel check: an out-of-range index
is an out-of-bounds array read, modelled as the `undefinedBehavior` outcome.
The outcome types also carry an `err` constructor for the error taxonomy of the
specification (OutOfRange / UnsupportedOnPlatform / SystemCallFailure) so that
the spec's error claims are statable against the code; the C shim itself never
produces an `err` outcome.
-/

namespace Sockopt

/-- The C struct `socket_option { int level; int option; }`. -/
structure socket_option where
  level : Int
  option : Int
deriving DecidableEq

/-- The platform preprocessor constants the file reads.  `none` means the
platform headers do not define the constant, in which case the C file's
`#ifndef X #define X (-1)` fallback substitutes the sentinel `-1`. -/
structure Platform where
  IPPROTO_TCP : Int
  TCP_CORK : Option Int
  TCP_KEEPCNT : Option Int
  TCP_KEEPIDLE : Option Int
  TCP_KEEPINTVL : Option Int
  TCP_DEFER_ACCEPT : Option Int
  TCP_NODELAY : Option Int

/-- The `#ifndef X #define X (-1) #endif` pattern: the effective value of a
constant is its header value when defined, and the sentinel `-1` otherwise. -/
def cdefine (c : Option Int) : Int :=
  c.getD (-1)

/-- Linux values of the constants (netinet/in.h, netinet/tcp.h). -/
def linux : Platform :=
  ⟨6, some 3, some 6, some 4, some 5, some 9, some 1⟩

/-- A platform on which none of the six TCP option constants is defined, so
every table entry carries the sentinel. -/
def noTcp : Platform :=
  ⟨6, none, none, none, none, none, none⟩

/-- The static table `sockopt_int[]` from the C file, in source order:
TCP_CORK, TCP_KEEPCNT, TCP_KEEPIDLE, TCP_KEEPINTVL, TCP_DEFER_ACCEPT,
TCP_NODELAY, each at level IPPROTO_TCP. -/
def sockopt_int (p : Platform) : List socket_option :=
  [ ⟨p.IPPROTO_TCP, cdefine p.TCP_CORK⟩,
    ⟨p.IPPROTO_TCP, cdefine p.TCP_KEEPCNT⟩,
    ⟨p.IPPROTO_TCP, cdefine p.TCP_KEEPIDLE⟩,
    ⟨p.IPPROTO_TCP, cdefine p.TCP_KEEPINTVL⟩,
    ⟨p.IPPROTO_TCP, cdefine p.TCP_DEFER_ACCEPT⟩,
    ⟨p.IPPROTO_TCP, cdefine p.TCP_NODELAY⟩ ]

/-- The array read `sockopt_int[Int_val(voption)]`: defined exactly when the
index is within the array bounds; `none` models the C out-of-bounds read,
which is undefined behavior. -/
def tableLookup (p : Platform) (i : Int) : Option socket_option :=
  if 0 ≤ i then (sockopt_int p)[i.toNat]? else none

/-- Kernel-side socket-option state: the integer value stored for each
(socket, level, option) triple. -/
abbrev OSState := Int × Int × Int → Int

/-- Modelled from the spec: `caml_unix_getsockopt_aux` is an external
collaborator owned by the host runtime's networking support library (not part
of this repository).  The spec's relational property assumes the OS
round-trips stored option values unchanged, so the syscall layer is idealized
as a read of the per-(socket, level, option) kernel store.  The command name
and the type code (always 1, TYPE_INT) do not affect the stored value. -/
def caml_unix_getsockopt_aux (cmdname : String) (ty level opt vsocket : Int)
    (st : OSState) : Int :=
  st (vsocket, level, opt)

/-- Modelled from the spec: `caml_unix_setsockopt_aux`, the external set-side
collaborator, idealized as a pointwise update of the kernel store. -/
def caml_unix_setsockopt_aux (cmdname : String) (ty level opt vsocket val : Int)
    (st : OSState) : OSState :=
  fun k => if k = (vsocket, level, opt) then val else st k

/-- The arguments `eio_unix_getsockopt_int` hands to
`caml_unix_getsockopt_aux` on a given call, when the table read is defined. -/
structure GetAuxArgs where
  cmdname : String
  ty : Int
  level : Int
  option : Int
  socket : Int
deriving DecidableEq

/-- The arguments `eio_unix_setsockopt_int` hands to
`caml_unix_setsockopt_aux` on a given call, when the table read is defined. -/
structure SetAuxArgs where
  cmdname : String
  ty : Int
  level : Int
  option : Int
  socket : Int
  value : Int
deriving DecidableEq

/-- Argument trace of `eio_unix_getsockopt_int`: the C function reads
`sockopt_int[voption]` and unconditionally calls the aux routine with type
code 1 and the entry's level and option; `none` when the array read is out of
bounds (undefined behavior, no well-defined call). -/
def eio_unix_getsockopt_int_call (p : Platform) (vsocket voption : Int) :
    Option GetAuxArgs :=
  (tableLookup p voption).map fun o =>
    ⟨"eio_unix_getsockopt_int", 1, o.level, o.option, vsocket⟩

/-- Argument trace of `eio_unix_setsockopt_int`; the value argument is the
caller's `val`, passed through verbatim. -/
def eio_unix_setsockopt_int_call (p : Platform) (vsocket voption val : Int) :
    Option SetAuxArgs :=
  (tableLookup p voption).map fun o =>
    ⟨"eio_unix_setsockopt_int", 1, o.level, o.option, vsocket, val⟩

/-- The error taxonomy of the specification (section 7).  The C shim performs
no checks of its own and never constructs any of these; they exist so the
spec's error claims can be stated against the code. -/
inductive SockoptError where
  | OutOfRange
  | UnsupportedOnPlatform
  | SystemCallFailure (code : Int)
deriving DecidableEq

/-- Result of a call to `eio_unix_getsockopt_int`. -/
inductive GetOutcome where
  | ok (v : Int)
  | err (e : SockoptError)
  | undefinedBehavior
deriving DecidableEq

/-- Result of a call to `eio_unix_setsockopt_int`: on success the updated
kernel store. -/
inductive SetOutcome where
  | ok (st : OSState)
  | err (e : SockoptError)
  | undefinedBehavior

/-- `eio_unix_getsockopt_int` from the C file: read the table entry at the
caller's index (no bounds check: out of range is undefined behavior) and
return the aux routine's result unmodified. -/
def eio_unix_getsockopt_int (p : Platform) (st : OSState)
    (vsocket voption : Int) : GetOutcome :=
  match tableLookup p voption with
  | some o =>
      .ok (caml_unix_getsockopt_aux "eio_unix_getsockopt_int" 1
            o.level o.option vsocket st)
  | none => .undefinedBehavior

/-- `eio_unix_setsockopt_int` from the C file: read the table entry at the
caller's index (no bounds check) and apply the aux routine with the caller's
value verbatim. -/
def eio_unix_setsockopt_int (p : Platform) (st : OSState)
    (vsocket voption val : Int) : SetOutcome :=
  match tableLookup p voption with
  | some o =>
      .ok (caml_unix_setsockopt_aux "eio_unix_setsockopt_int" 1
            o.level o.option vsocket val st)
  | none => .undefinedBehavior

/-- An empty kernel store, for concrete evaluations. -/
def st0 : OSState := fun _ => 0

theorem sockopt_int_length (p : Platform) : (sockopt_int p).length = 6 :=
  rfl

theorem tableLookup_eq_none (p : Platform) (i : Int) (h : i < 0 ∨ 6 ≤ i) :
    tableLookup p i = none := by
  unfold tableLookup
  rcases h with h | h
  · rw [if_neg (by omega)]
  · rw [if_pos (by omega)]
    apply List.getElem?_eq_none
    rw [sockopt_int_length]
    omega

theorem tableLookup_eq_some (p : Platform) (i : Int) (h0 : 0 ≤ i)
    (h6 : i < 6) : ∃ o, tableLookup p i = some o ∧ o ∈ sockopt_int p := by
  unfold tableLookup
  rw [if_pos h0]
  have hlt : i.toNat < (sockopt_int p).length := by
    rw [sockopt_int_length]; omega
  rw [List.getElem?_eq_getElem hlt]
  exact ⟨_, rfl, List.getElem_mem hlt⟩

theorem tableLookup_mem (p : Platform) (i : Int) (o : socket_option)
    (h : tableLookup p i = some o) : o ∈ sockopt_int p := by
  unfold tableLookup at h
  split at h
  · obtain ⟨hlt, rfl⟩ := List.getElem?_eq_some.mp h
    exact List.getElem_mem hlt
  · exact absurd h (by simp)

theorem mem_level_tcp (p : Platform) (o : socket_option)
    (h : o ∈ sockopt_int p) : o.level = p.IPPROTO_TCP := by
  simp only [sockopt_int, List.mem_cons, List.not_mem_nil, or_false] at h
  rcases h with rfl | rfl | rfl | rfl | rfl | rfl <;> rfl

theorem set_get_aux (p : Platform) (st : OSState) (sock i v : Int)
    (h0 : 0 ≤ i) (h6 : i < 6) :
    ∃ st1, eio_unix_setsockopt_int p st sock i v = SetOutcome.ok st1 ∧
      eio_unix_getsockopt_int p st1 sock i = GetOutcome.ok v := by
  obtain ⟨o, ho, -⟩ := tableLookup_eq_some p i h0 h6
  refine ⟨caml_unix_setsockopt_aux "eio_unix_setsockopt_int" 1
    o.level o.option sock v st, ?_, ?_⟩
  · rw [eio_unix_setsockopt_int, ho]
  · rw [eio_unix_getsockopt_int, ho]
    simp [caml_unix_getsockopt_aux, caml_unix_setsockopt_aux]

/-- Claim C1 counterexample: at index `-1` (out of range), neither function
fails with an `OutOfRange` error; the C code performs no bounds check. -/
theorem oob_not_out_of_range_cex :
    eio_unix_getsockopt_int linux st0 0 (-1) ≠
      GetOutcome.err SockoptError.OutOfRange ∧
    eio_unix_setsockopt_int linux st0 0 (-1) 1 ≠
      SetOutcome.err SockoptError.OutOfRange :=
  ⟨(fun h => nomatch h), (fun h => nomatch h)⟩

/-- Claim C1 (amended): for every index `i < 0` or `i ≥ 6`, both
`eio_unix_getsockopt_int` and `eio_unix_setsockopt_int` read the table out of
bounds — undefined behavior — rather than failing with an explicit
`OutOfRange` error; no well-defined invocation of the aux syscall layer
occurs.  The spec's `OutOfRange` error is its stated tightening of this
undefined behavior, not code behavior. -/
theorem oob_index_undefined_behavior (p : Platform) (st : OSState)
    (sock i v : Int) (h : i < 0 ∨ 6 ≤ i) :
    eio_unix_getsockopt_int p st sock i = GetOutcome.undefinedBehavior ∧
    eio_unix_setsockopt_int p st sock i v = SetOutcome.undefinedBehavior ∧
    eio_unix_getsockopt_int_call p sock i = none ∧
    eio_unix_setsockopt_int_call p sock i v = none := by
  have hn := tableLookup_eq_none p i h
  refine ⟨?_, ?_, ?_, ?_⟩
  · rw [eio_unix_getsockopt_int, hn]
  · rw [eio_unix_setsockopt_int, hn]
  · rw [eio_unix_getsockopt_int_call, hn]; rfl
  · rw [eio_unix_setsockopt_int_call, hn]; rfl

/-- Witness for C1's amended theorem at index 7. -/
theorem oob_index_undefined_behavior_witness :
    ((7 : Int) < 0 ∨ (6 : Int) ≤ 7) ∧
    (eio_unix_getsockopt_int linux st0 0 7 = GetOutcome.undefinedBehavior ∧
     eio_unix_setsockopt_int linux st0 0 7 1 = SetOutcome.undefinedBehavior ∧
     eio_unix_getsockopt_int_call linux 0 7 = none ∧
     eio_unix_setsockopt_int_call linux 0 7 1 = none) :=
  ⟨Or.inr (by decide),
   oob_index_undefined_behavior linux st0 0 7 1 (Or.inr (by decide))⟩

/-- Claim C2 counterexample: on a platform where entry 0 carries the
sentinel `-1`, `eio_unix_getsockopt_int` does not fail with
`UnsupportedOnPlatform`; it invokes the aux syscall layer, passing the
sentinel `-1` as the option number. -/
theorem sentinel_invokes_syscall_cex :
    eio_unix_getsockopt_int noTcp st0 0 0 ≠
      GetOutcome.err SockoptError.UnsupportedOnPlatform ∧
    eio_unix_getsockopt_int_call noTcp 0 0 =
      some ⟨"eio_unix_getsockopt_int", 1, 6, -1, 0⟩ := by
  exact ⟨(fun h => nomatch h), by decide⟩

/-- Claim C2 (amended): the C functions perform no sentinel check: for any
in-range index whose table entry carries the unavailable-sentinel `-1`, both
functions still invoke the aux syscall layer, passing `-1` as the option
number, so any failure comes from the OS error path.  The
`UnsupportedOnPlatform` error is the spec's tightening, absent from the
code. -/
theorem sentinel_passed_to_syscall (p : Platform) (sock i v : Int)
    (o : socket_option) (h : tableLookup p i = some o) (hs : o.option = -1) :
    eio_unix_getsockopt_int_call p sock i =
      some ⟨"eio_unix_getsockopt_int", 1, o.level, -1, sock⟩ ∧
    eio_unix_setsockopt_int_call p sock i v =
      some ⟨"eio_unix_setsockopt_int", 1, o.level, -1, sock, v⟩ := by
  rw [eio_unix_getsockopt_int_call, eio_unix_setsockopt_int_call, h, ← hs]
  exact ⟨rfl, rfl⟩

/-- Witness for C2's amended theorem: platform with no TCP constants,
index 0. -/
theorem sentinel_passed_to_syscall_witness :
    tableLookup noTcp 0 = some ⟨6, -1⟩ ∧
    (⟨6, -1⟩ : socket_option).option = -1 ∧
    (eio_unix_getsockopt_int_call noTcp 0 0 =
       some ⟨"eio_unix_getsockopt_int", 1, 6, -1, 0⟩ ∧
     eio_unix_setsockopt_int_call noTcp 0 0 9 =
       some ⟨"eio_unix_setsockopt_int", 1, 6, -1, 0, 9⟩) :=
  ⟨by decide, by decide,
   sentinel_passed_to_syscall noTcp 0 0 9 ⟨6, -1⟩ (by decide) (by decide)⟩

/-- Claim C3 counterexample: on Linux, table entry 0 is not TCP_NODELAY: its
option number is TCP_CORK (3), while TCP_NODELAY is 1. -/
theorem entry_zero_not_nodelay_cex :
    ((sockopt_int linux)[0]?).map socket_option.option ≠
      some (cdefine linux.TCP_NODELAY) := by
  decide

/-- Claim C3 (amended): in the table, TCP_NODELAY is entry 5 and entry 0 is
TCP_CORK.  Setting at index 5 then getting at index 5 returns the value, both
for 1 and for 0 (under the ideal kernel-store model of the aux layer). -/
theorem nodelay_entry_five_roundtrip (st : OSState) (sock : Int) :
    ((sockopt_int linux)[5]?).map socket_option.option =
      some (cdefine linux.TCP_NODELAY) ∧
    ((sockopt_int linux)[0]?).map socket_option.option =
      some (cdefine linux.TCP_CORK) ∧
    (∃ st1, eio_unix_setsockopt_int linux st sock 5 1 = SetOutcome.ok st1 ∧
       eio_unix_getsockopt_int linux st1 sock 5 = GetOutcome.ok 1) ∧
    (∃ st1, eio_unix_setsockopt_int linux st sock 5 0 = SetOutcome.ok st1 ∧
       eio_unix_getsockopt_int linux st1 sock 5 = GetOutcome.ok 0) :=
  ⟨by decide, by decide,
   set_get_aux linux st sock 5 1 (by decide) (by decide),
   set_get_aux linux st sock 5 0 (by decide) (by decide)⟩

/-- Claim C4 counterexample: `eio_unix_getsockopt_int` at index 6 does not
fail with an `OutOfRange` error; the access is out of bounds, i.e. undefined
behavior. -/
theorem index_six_not_out_of_range_cex :
    eio_unix_getsockopt_int linux st0 0 6 ≠
      GetOutcome.err SockoptError.OutOfRange ∧
    eio_unix_getsockopt_int linux st0 0 6 = GetOutcome.undefinedBehavior :=
  ⟨(fun h => nomatch h), rfl⟩

/-- Claim C4 (amended): the table has exactly 6 entries (indices 0–5), and
`eio_unix_getsockopt_int` at index 6 reads the table out of bounds —
undefined behavior — rather than a checked `OutOfRange` error. -/
theorem table_six_entries_index_six_ub (p : Platform) (st : OSState)
    (sock : Int) :
    (sockopt_int p).length = 6 ∧
    eio_unix_getsockopt_int p st sock 6 = GetOutcome.undefinedBehavior :=
  ⟨rfl, rfl⟩

/-- Claim C5: for every in-range index, `eio_unix_getsockopt_int` resolves
the table entry at that index, invokes the aux get routine exactly once with
type code 1 (TYPE_INT), the entry's level and option, and the given socket,
and returns the routine's integer result unmodified. -/
theorem get_uses_table_entry (p : Platform) (st : OSState) (sock i : Int)
    (h0 : 0 ≤ i) (h6 : i < 6) :
    ∃ o : socket_option, tableLookup p i = some o ∧
      eio_unix_getsockopt_int_call p sock i =
        some ⟨"eio_unix_getsockopt_int", 1, o.level, o.option, sock⟩ ∧
      eio_unix_getsockopt_int p st sock i =
        GetOutcome.ok (caml_unix_getsockopt_aux "eio_unix_getsockopt_int" 1
          o.level o.option sock st) := by
  obtain ⟨o, ho, -⟩ := tableLookup_eq_some p i h0 h6
  refine ⟨o, ho, ?_, ?_⟩
  · rw [eio_unix_getsockopt_int_call, ho]; rfl
  · rw [eio_unix_getsockopt_int, ho]

/-- Witness for C5 at Linux, index 2 (TCP_KEEPIDLE). -/
theorem get_uses_table_entry_witness :
    (0 : Int) ≤ 2 ∧ (2 : Int) < 6 ∧
    (∃ o : socket_option, tableLookup linux 2 = some o ∧
      eio_unix_getsockopt_int_call linux 0 2 =
        some ⟨"eio_unix_getsockopt_int", 1, o.level, o.option, 0⟩ ∧
      eio_unix_getsockopt_int linux st0 0 2 =
        GetOutcome.ok (caml_unix_getsockopt_aux "eio_unix_getsockopt_int" 1
          o.level o.option 0 st0)) :=
  ⟨by decide, by decide,
   get_uses_table_entry linux st0 0 2 (by decide) (by decide)⟩

/-- Claim C6: for every in-range index and every value, the set path passes
the caller's value verbatim to the aux set routine — the value field of the
argument record is exactly `v`, with no validation in between. -/
theorem set_passes_value_verbatim (p : Platform) (sock i v : Int)
    (h0 : 0 ≤ i) (h6 : i < 6) :
    ∃ o : socket_option, tableLookup p i = some o ∧
      eio_unix_setsockopt_int_call p sock i v =
        some ⟨"eio_unix_setsockopt_int", 1, o.level, o.option, sock, v⟩ ∧
      (eio_unix_setsockopt_int_call p sock i v).map SetAuxArgs.value =
        some v := by
  obtain ⟨o, ho, -⟩ := tableLookup_eq_some p i h0 h6
  refine ⟨o, ho, ?_, ?_⟩ <;> rw [eio_unix_setsockopt_int_call, ho] <;> rfl

/-- Witness for C6 at Linux, index 1, value 42. -/
theorem set_passes_value_verbatim_witness :
    (0 : Int) ≤ 1 ∧ (1 : Int) < 6 ∧
    (∃ o : socket_option, tableLookup linux 1 = some o ∧
      eio_unix_setsockopt_int_call linux 0 1 42 =
        some ⟨"eio_unix_setsockopt_int", 1, o.level, o.option, 0, 42⟩ ∧
      (eio_unix_setsockopt_int_call linux 0 1 42).map SetAuxArgs.value =
        some 42) :=
  ⟨by decide, by decide,
   set_passes_value_verbatim linux 0 1 42 (by decide) (by decide)⟩

/-- Claim C7: for every in-range index and value, on the same socket, a get
after a successful set returns the set value, under the round-trip hypothesis
on the OS (encoded by the ideal kernel-store model of the aux layer). -/
theorem set_then_get_returns_value (p : Platform) (st : OSState)
    (sock i v : Int) (h0 : 0 ≤ i) (h6 : i < 6) :
    ∃ st1, eio_unix_setsockopt_int p st sock i v = SetOutcome.ok st1 ∧
      eio_unix_getsockopt_int p st1 sock i = GetOutcome.ok v :=
  set_get_aux p st sock i v h0 h6

/-- Witness for C7 at Linux, index 5 (TCP_NODELAY), value 1. -/
theorem set_then_get_returns_value_witness :
    (0 : Int) ≤ 5 ∧ (5 : Int) < 6 ∧
    (∃ st1, eio_unix_setsockopt_int linux st0 0 5 1 = SetOutcome.ok st1 ∧
      eio_unix_getsockopt_int linux st1 0 5 = GetOutcome.ok 1) :=
  ⟨by decide, by decide,
   set_then_get_returns_value linux st0 0 5 1 (by decide) (by decide)⟩

/-- Claim C8: on every platform, the table has six entries in the fixed order
TCP_CORK, TCP_KEEPCNT, TCP_KEEPIDLE, TCP_KEEPINTVL, TCP_DEFER_ACCEPT,
TCP_NODELAY — each entry's option field is the `#ifndef` fallback of the
corresponding constant, and an undefined constant yields the sentinel `-1`
(so availability never changes an option's index). -/
theorem sentinel_fallback_fixed_indices (p : Platform) :
    (sockopt_int p).length = 6 ∧
    (sockopt_int p)[0]? = some ⟨p.IPPROTO_TCP, cdefine p.TCP_CORK⟩ ∧
    (sockopt_int p)[1]? = some ⟨p.IPPROTO_TCP, cdefine p.TCP_KEEPCNT⟩ ∧
    (sockopt_int p)[2]? = some ⟨p.IPPROTO_TCP, cdefine p.TCP_KEEPIDLE⟩ ∧
    (sockopt_int p)[3]? = some ⟨p.IPPROTO_TCP, cdefine p.TCP_KEEPINTVL⟩ ∧
    (sockopt_int p)[4]? = some ⟨p.IPPROTO_TCP, cdefine p.TCP_DEFER_ACCEPT⟩ ∧
    (sockopt_int p)[5]? = some ⟨p.IPPROTO_TCP, cdefine p.TCP_NODELAY⟩ ∧
    cdefine none = -1 :=
  ⟨rfl, rfl, rfl, rfl, rfl, rfl, rfl, rfl⟩

/-- Claim C9: every table entry's level is IPPROTO_TCP, and consequently
every argument record either function hands to the aux syscall layer carries
level IPPROTO_TCP — no other protocol level ever reaches the syscall layer
through these two operations. -/
theorem levels_always_tcp (p : Platform) :
    (∀ o ∈ sockopt_int p, o.level = p.IPPROTO_TCP) ∧
    (∀ sock i : Int, ∀ a : GetAuxArgs,
      eio_unix_getsockopt_int_call p sock i = some a →
        a.level = p.IPPROTO_TCP) ∧
    (∀ sock i v : Int, ∀ b : SetAuxArgs,
      eio_unix_setsockopt_int_call p sock i v = some b →
        b.level = p.IPPROTO_TCP) := by
  refine ⟨fun o h => mem_level_tcp p o h, ?_, ?_⟩
  · intro sock i a ha
    rw [eio_unix_getsockopt_int_call] at ha
    cases htl : tableLookup p i with
    | none => rw [htl] at ha; exact absurd ha (by simp)
    | some o =>
        rw [htl] at ha
        injection ha with ha
        rw [← ha]
        exact mem_level_tcp p o (tableLookup_mem p i o htl)
  · intro sock i v b hb
    rw [eio_unix_setsockopt_int_call] at hb
    cases htl : tableLookup p i with
    | none => rw [htl] at hb; exact absurd hb (by simp)
    | some o =>
        rw [htl] at hb
        injection hb with hb
        rw [← hb]
        exact mem_level_tcp p o (tableLookup_mem p i o htl)

/-- Witness for C9: the concrete argument record produced at Linux, index 0,
has level IPPROTO_TCP = 6. -/
theorem levels_always_tcp_witness :
    (⟨"eio_unix_getsockopt_int", 1, 6, 3, 0⟩ : GetAuxArgs).level =
      linux.IPPROTO_TCP :=
  (levels_always_tcp linux).2.1 0 0
    ⟨"eio_unix_getsockopt_int", 1, 6, 3, 0⟩ (by decide)

/-- Claim C10: both functions resolve indices through the same single table:
whenever both produce a well-defined aux call at the same index, the
(level, option) pair passed by the get side equals the pair passed by the set
side, and both pass type code 1 (TYPE_INT). -/
theorem get_set_same_descriptor (p : Platform) (sock1 sock2 i v : Int)
    (a : GetAuxArgs) (b : SetAuxArgs)
    (hg : eio_unix_getsockopt_int_call p sock1 i = some a)
    (hs : eio_unix_setsockopt_int_call p sock2 i v = some b) :
    a.level = b.level ∧ a.option = b.option ∧ a.ty = 1 ∧ b.ty = 1 := by
  rw [eio_unix_getsockopt_int_call] at hg
  rw [eio_unix_setsockopt_int_call] at hs
  cases htl : tableLookup p i with
  | none =>
      rw [htl] at hg
      exact absurd hg (by simp)
  | some o =>
      rw [htl] at hg hs
      injection hg with hg
      injection hs with hs
      rw [← hg, ← hs]
      exact ⟨rfl, rfl, rfl, rfl⟩

/-- Witness for C10 at Linux, index 1 (TCP_KEEPCNT, option number 6). -/
theorem get_set_same_descriptor_witness :
    ((⟨"eio_unix_getsockopt_int", 1, 6, 6, 0⟩ : GetAuxArgs).level =
       (⟨"eio_unix_setsockopt_int", 1, 6, 6, 0, 4⟩ : SetAuxArgs).level) ∧
    ((⟨"eio_unix_getsockopt_int", 1, 6, 6, 0⟩ : GetAuxArgs).option =
       (⟨"eio_unix_setsockopt_int", 1, 6, 6, 0, 4⟩ : SetAuxArgs).option) ∧
    (⟨"eio_unix_getsockopt_int", 1, 6, 6, 0⟩ : GetAuxArgs).ty = 1 ∧
    (⟨"eio_unix_setsockopt_int", 1, 6, 6, 0, 4⟩ : SetAuxArgs).ty = 1 :=
  get_set_same_descriptor linux 0 0 1 4
    ⟨"eio_unix_getsockopt_int", 1, 6, 6, 0⟩
    ⟨"eio_unix_setsockopt_int", 1, 6, 6, 0, 4⟩ (by decide) (by decide)

end Sockopt
